import Mathlib

/-!
Shallow embedding of `src/validator.py` (leopart): the fuzzy matcher
`match_parts`, the record upsert `parse_and_insert_response_parts`, and the
checkpointed pagination crawler `build_parts_db` with its helpers
`save_status` / `fetch_status`.
-/

namespace Validator

/-- Inner recursion of the Levenshtein distance: given `f t = levenshtein s t`
for all `t`, computes `levenshtein (a :: s)` structurally on the second
list, so that the whole distance reduces by kernel evaluation. -/
def levAux (f : List Char → Nat) (a : Char) : List Char → Nat
  | [] => f [] + 1
  | b :: t =>
    if a = b then f t
    else 1 + min (f t) (min (levAux f a t) (f (b :: t)))

/-- Levenshtein edit distance between two character lists, the metric
computed by the `jellyfish.levenshtein_distance` call in `match_parts`
(unit-cost insertion, deletion and substitution). -/
def levenshtein : List Char → List Char → Nat
  | [], t => t.length
  | a :: s, t => levAux (levenshtein s) a t

/-- A stored catalog record: the columns of the `Part` model written by
`parse_and_insert_response_parts` (validator.py lines 128-135). -/
structure Part where
  aisler_id : String
  mpn : String
  manufacturer : String
  description : String
  datasheet : String
deriving Repr, DecidableEq

/-- One element of a response's `data` array, already shaped as the fields
`parse_and_insert_response_parts` reads: `part["id"]` and the four
`part["attributes"]` entries (validator.py lines 119-123). -/
structure Payload where
  id : String
  mpn : String
  manufacturer : String
  datasheet : String
  description : String
deriving Repr, DecidableEq

/-- Construction of the `Part` row from one payload
(validator.py lines 128-135). -/
def payloadToPart (p : Payload) : Part :=
  { aisler_id := p.id
    mpn := p.mpn
    manufacturer := p.manufacturer
    description := p.description
    datasheet := p.datasheet }

/-- One loop body of `parse_and_insert_response_parts` (validator.py lines
137-149), over the store modelled as the list of rows in insertion order.
When a row with the same `aisler_id` exists, the source executes
`in_db = db_part`, which rebinds the local name only; no column of the
stored row changes and the commit persists nothing, so the store is
returned unchanged. Otherwise the fresh row is added. -/
def insertOne (db : List Part) (p : Payload) : List Part :=
  let db_part := payloadToPart p
  if db.any (fun q => q.aisler_id = db_part.aisler_id) then
    db
  else
    db ++ [db_part]

/-- `parse_and_insert_response_parts` (validator.py lines 106-155): folds
`insertOne` over the payloads of one response page. -/
def parse_and_insert_response_parts (db : List Part) (parts : List Payload) : List Part :=
  parts.foldl insertOne db

/-- Distance used by `match_parts` (validator.py line 330): Levenshtein
distance between the query value and a candidate's `mpn`. -/
def partDist (query : String) (p : Part) : Nat :=
  levenshtein query.data p.mpn.data

/-- The loop of `match_parts` (validator.py lines 327-335), with the
`best` dictionary as an optional (part, dist) accumulator. -/
def match_parts_go (query : String) : List Part → Option (Part × Nat) → Option Part
  | [], best => best.map Prod.fst
  | p :: rest, best =>
    let dist := partDist query p
    match best with
    | none => match_parts_go query rest (some (p, dist))
    | some (bp, bd) =>
      if dist < bd then match_parts_go query rest (some (p, dist))
      else match_parts_go query rest (some (bp, bd))

/-- `match_parts` (validator.py lines 319-335): returns the best matching
part, or `none` when no candidate updates the initial accumulator. -/
def match_parts (query : String) (related_parts : List Part) : Option Part :=
  match_parts_go query related_parts none

lemma match_parts_go_spec (q : String) :
    ∀ (l : List Part) (bp : Part),
      ∃ r, match_parts_go q l (some (bp, partDist q bp)) = some r ∧
        partDist q r ≤ partDist q bp ∧
        (∀ p ∈ l, partDist q r ≤ partDist q p) ∧
        (r = bp ∨ ∃ pre post, l = pre ++ r :: post ∧
          partDist q r < partDist q bp ∧ ∀ p ∈ pre, partDist q r < partDist q p) := by
  intro l
  induction l with
  | nil =>
    intro bp
    exact ⟨bp, rfl, le_refl _, by simp, Or.inl rfl⟩
  | cons p rest ih =>
    intro bp
    by_cases hlt : partDist q p < partDist q bp
    · have hgo : match_parts_go q (p :: rest) (some (bp, partDist q bp)) =
          match_parts_go q rest (some (p, partDist q p)) := by
        simp [match_parts_go, hlt]

      obtain ⟨r, hr, h1, h2, h3⟩ := ih p
      refine ⟨r, hgo ▸ hr, le_trans h1 (le_of_lt hlt), ?_, ?_⟩
      · intro x hx
        rcases List.mem_cons.mp hx with h | h
        · subst h; exact le_trans h1 (le_refl _)
        · exact h2 x h
      · rcases h3 with h | ⟨pre, post, heq, hlt2, hpre⟩
        · subst h
          exact Or.inr ⟨[], rest, rfl, hlt, by simp⟩
        · refine Or.inr ⟨p :: pre, post, by rw [heq]; rfl, lt_trans hlt2 hlt, ?_⟩
          intro x hx
          rcases List.mem_cons.mp hx with h | h
          · subst h; exact hlt2
          · exact hpre x h
    · have hle : partDist q bp ≤ partDist q p := not_lt.mp hlt
      have hgo : match_parts_go q (p :: rest) (some (bp, partDist q bp)) =
          match_parts_go q rest (some (bp, partDist q bp)) := by
        simp [match_parts_go, hlt]
      obtain ⟨r, hr, h1, h2, h3⟩ := ih bp
      refine ⟨r, hgo ▸ hr, h1, ?_, ?_⟩
      · intro x hx
        rcases List.mem_cons.mp hx with h | h
        · subst h; exact le_trans h1 hle
        · exact h2 x h
      · rcases h3 with h | ⟨pre, post, heq, hlt2, hpre⟩
        · exact Or.inl h
        · refine Or.inr ⟨p :: pre, post, by rw [heq]; rfl, hlt2, ?_⟩
          intro x hx
          rcases List.mem_cons.mp hx with h | h
          · subst h; exact lt_of_lt_of_le hlt2 hle
          · exact hpre x h

/-- Claim C1: for every query and non-empty candidate list, `match_parts`
returns some candidate that attains the minimal Levenshtein distance to the
query over the whole list, and every candidate occurring strictly before it
has strictly larger distance (so among minimal candidates the first one in
sequence order is returned). -/
theorem match_parts_picks_first_minimum (q : String) (l : List Part) (h : l ≠ []) :
    ∃ r pre post, match_parts q l = some r ∧ l = pre ++ r :: post ∧
      (∀ p ∈ l, partDist q r ≤ partDist q p) ∧
      (∀ p ∈ pre, partDist q r < partDist q p) := by
  match l, h with
  | p :: rest, _ =>
    have hstart : match_parts q (p :: rest) =
        match_parts_go q rest (some (p, partDist q p)) := rfl
    obtain ⟨r, hr, h1, h2, h3⟩ := match_parts_go_spec q rest p
    rcases h3 with heq | ⟨pre, post, hdec, hlt2, hpre⟩
    · subst heq
      refine ⟨r, [], rest, hstart ▸ hr, rfl, ?_, by simp⟩
      intro x hx
      rcases List.mem_cons.mp hx with h | h
      · subst h; exact le_refl _
      · exact h2 x h
    · refine ⟨r, p :: pre, post, hstart ▸ hr, by rw [hdec]; rfl, ?_, ?_⟩
      · intro x hx
        rcases List.mem_cons.mp hx with h | h
        · subst h; exact h1
        · exact h2 x h
      · intro x hx
        rcases List.mem_cons.mp hx with h | h
        · subst h; exact hlt2
        · exact hpre x h

/-- Two candidates at equal distance from the query "AB": the matcher must
return the first one. -/
def partFirst : Part :=
  { aisler_id := "1", mpn := "AX", manufacturer := "m", description := "d", datasheet := "u" }

/-- Second candidate, at the same distance 1 from the query "AB". -/
def partSecond : Part :=
  { aisler_id := "2", mpn := "AY", manufacturer := "m", description := "d", datasheet := "u" }

/-- Witness for C1 at a concrete tie: query "AB" against mpns "AX" and "AY",
both at distance 1; the theorem yields the decomposition with the returned
part, which evaluation confirms is the first candidate. -/
theorem match_parts_picks_first_minimum_witness :
    (∃ r pre post, match_parts "AB" [partFirst, partSecond] = some r ∧
      [partFirst, partSecond] = pre ++ r :: post ∧
      (∀ p ∈ [partFirst, partSecond], partDist "AB" r ≤ partDist "AB" p) ∧
      (∀ p ∈ pre, partDist "AB" r < partDist "AB" p)) ∧
    match_parts "AB" [partFirst, partSecond] = some partFirst :=
  ⟨match_parts_picks_first_minimum "AB" [partFirst, partSecond] (List.cons_ne_nil _ _),
   by decide⟩

/-- Claim C10: with an empty candidate list `match_parts` returns `none`
(the `best` accumulator is never updated) rather than raising. -/
theorem match_parts_empty_none (q : String) : match_parts q [] = none := rfl

/-- First payload for external id "P1". -/
def payA : Payload :=
  { id := "P1", mpn := "OLD", manufacturer := "M1", datasheet := "D1", description := "S1" }

/-- Second payload for the same external id "P1" with different fields. -/
def payB : Payload :=
  { id := "P1", mpn := "NEW", manufacturer := "M2", datasheet := "D2", description := "S2" }

/-- Claim C2 (code bug): upserting two payloads with the same external id
leaves exactly one stored record, but its fields are those of the FIRST
payload, not the second: the source's `in_db = db_part` only rebinds a
local name, so the existing row is never updated, contradicting the
adjacent comment "if a part in the DB has been found, update it
accordingly". -/
theorem upsert_same_id_keeps_first_fields :
    parse_and_insert_response_parts [] [payA, payB] = [payloadToPart payA] ∧
    payloadToPart payA ≠ payloadToPart payB := by
  decide

/-- The mutable pagination-meta accumulator of `build_parts_db`
(validator.py lines 226-231): a dict with keys total / offset / limit. -/
structure Accum where
  total : Int
  offset : Int
  limit : Int
deriving Repr, DecidableEq

/-- Initial accumulator (validator.py lines 227-231): every counter -1,
meaning unknown. -/
def accumInit : Accum := { total := -1, offset := -1, limit := -1 }

/-- The `meta` object of a response body, modelling the two keys the
crawler reads; `none` in a field means the key is missing from the dict
(reading it raises KeyError in the source). -/
structure MetaObj where
  offset : Option Int
  total : Option Int
deriving Repr, DecidableEq

/-- The `links` object of a response body. The outer `Option` in `next`
models key presence (a missing key raises KeyError when read); the inner
one models JSON null versus a URL string. -/
structure LinksObj where
  next : Option (Option String)
deriving Repr, DecidableEq

/-- A successfully fetched (HTTP 200) response body, with each top-level
key optional as in `response_json.keys()` membership tests
(validator.py lines 266-298). -/
structure Page where
  meta : Option MetaObj
  data : Option (List Payload)
  links : Option LinksObj
deriving Repr, DecidableEq

/-- The dict pickled by `save_status` (validator.py lines 158-182). -/
structure Checkpoint where
  finished : Option Int
  meta : Option Accum
  next_urls : Option (List String)
deriving Repr, DecidableEq

/-- `save_status` (validator.py lines 158-182): builds the checkpoint dict;
when `finished` is true the current time is stamped, the other two fields
are stored exactly as passed. -/
def save_status (next_urls : Option (List String)) (meta : Option Accum)
    (finished : Bool) (now : Int) : Checkpoint :=
  { finished := if finished then some now else none
    meta := meta
    next_urls := next_urls }

/-- State of the pickle status file: missing, present but unreadable or
corrupt, or present with a checkpoint. -/
inductive FileState where
  | missing
  | corrupt
  | valid (cp : Checkpoint)
deriving Repr, DecidableEq

/-- `fetch_status` (validator.py lines 185-203): returns the stored triple
(next_urls, meta, finished); a missing file, or any exception while
unpickling or reading the keys, yields the (None, None, None) sentinel
after logging. -/
def fetch_status : FileState → Option (List String) × Option Accum × Option Int
  | .missing => (none, none, none)
  | .corrupt => (none, none, none)
  | .valid cp => (cp.next_urls, cp.meta, cp.finished)

/-- How one crawl iteration aborts. `loopOffset` is `exit(-10)`
(non-increasing offset), `loopUrl` is `exit(-6)` (next url equal to the
current one), `insertFailed` is `exit(-7)` (exception while inserting,
in particular iterating a missing `data` value), and `keyError` models an
uncaught Python KeyError escaping the loop (there is no handler around the
meta / links accesses in the source). -/
inductive StepError where
  | loopOffset
  | loopUrl
  | insertFailed
  | keyError (key : String)
deriving Repr, DecidableEq

/-- Meta handling of one iteration (validator.py lines 266-278): when the
`meta` key is absent nothing happens; otherwise its `offset` is read
(KeyError if missing), compared against the accumulator's offset
(`exit(-10)` when not strictly larger), and on success the accumulator is
updated with the keys present in the response meta. -/
def metaStep (a : Accum) : Option MetaObj → Except StepError Accum
  | none => .ok a
  | some m =>
    match m.offset with
    | none => .error (.keyError "offset")
    | some o =>
      if a.offset ≥ o then .error .loopOffset
      else .ok { total := m.total.getD a.total, offset := o, limit := a.limit }

/-- Links handling of one iteration (validator.py lines 286-298): when the
`links` key is absent nothing happens; otherwise its `next` is read
(KeyError if missing); a null next enqueues nothing, a next equal to the
just-fetched url is `exit(-6)`, and any other next is appended to the
queue. -/
def linksStep (url : String) (rest : List String) :
    Option LinksObj → Except StepError (List String)
  | none => .ok rest
  | some lk =>
    match lk.next with
    | none => .error (.keyError "next")
    | some none => .ok rest
    | some (some nu) =>
      if url = nu then .error .loopUrl else .ok (rest ++ [nu])

/-- Full crawler state during `build_parts_db`: the pending queue, the
accumulator, the record store, the status file on disk, and the log of
urls fetched so far (in fetch order). -/
structure CrawlState where
  next_urls : List String
  meta : Accum
  db : List Part
  file : FileState
  log : List String
deriving Repr, DecidableEq

/-- Result of one loop iteration: continue with a new state, or abort; on
abort the carried state records the fetch log and whatever save happened
before the abort. -/
inductive IterResult where
  | ok (s : CrawlState)
  | fail (e : StepError) (s : CrawlState)
deriving Repr, DecidableEq

/-- One iteration of the while loop of `build_parts_db` (validator.py lines
245-309): pop the head url, fetch it, run the meta check/update, the links
check, then insert the `data` payloads; the `finally` block saves the
checkpoint when the insert step runs, so a missing `data` key aborts with
`exit(-7)` but still saves. The loop-detection exits and the KeyErrors
happen before the try block, so nothing is saved on those paths. -/
def crawl_iter (fetchF : String → Page) (now : Int) (s : CrawlState) : IterResult :=
  match s.next_urls with
  | [] => .ok s
  | url :: rest =>
    let page := fetchF url
    let logg := s.log ++ [url]
    match metaStep s.meta page.meta with
    | .error e => .fail e { s with log := logg }
    | .ok meta2 =>
      match linksStep url rest page.links with
      | .error e => .fail e { s with log := logg }
      | .ok queue2 =>
        match page.data with
        | none =>
          .fail .insertFailed
            { next_urls := queue2, meta := meta2, db := s.db
              file := .valid (save_status (some queue2) (some meta2) false now)
              log := logg }
        | some items =>
          .ok
            { next_urls := queue2, meta := meta2
              db := parse_and_insert_response_parts s.db items
              file := .valid (save_status (some queue2) (some meta2) false now)
              log := logg }

/-- Terminal outcome of one run of the crawl loop. -/
inductive Outcome where
  | completed
  | interrupted
  | failed (e : StepError)
  | outOfFuel
deriving Repr, DecidableEq

/-- What a finished run leaves behind: the outcome, the status file, the
record store, and the list of urls fetched. -/
structure RunResult where
  outcome : Outcome
  file : FileState
  db : List Part
  log : List String
deriving Repr, DecidableEq

/-- The while loop of `build_parts_db` with its closing saves (validator.py
lines 245-316). `cancel k` is the value of the cooperative `graceful_exit`
flag as observed at the k-th loop boundary; on exit, a clean run saves
`save_status(None, None, True)` while a cancelled one saves the remaining
queue and accumulator unfinished. `fuel` bounds the number of loop
iterations so the embedding is total; exhausting it yields `outOfFuel`. -/
def crawl_loop (fetchF : String → Page) (cancel : Nat → Bool) (now : Int) :
    Nat → Nat → CrawlState → RunResult
  | 0, _, s => ⟨.outOfFuel, s.file, s.db, s.log⟩
  | fuel + 1, k, s =>
    if s.next_urls = [] ∨ cancel k = true then
      if cancel k = true then
        ⟨.interrupted, .valid (save_status (some s.next_urls) (some s.meta) false now),
          s.db, s.log⟩
      else
        ⟨.completed, .valid (save_status none none true now), s.db, s.log⟩
    else
      match crawl_iter fetchF now s with
      | .ok s2 => crawl_loop fetchF cancel now fuel (k + 1) s2
      | .fail e s2 => ⟨.failed e, s2.file, s2.db, s2.log⟩

/-- One week, the crawl cooldown `timedelta(weeks=1)` of validator.py line
217, with timestamps modelled as integer seconds. -/
def weekSecs : Int := 604800

/-- Result of one invocation of `build_parts_db`: either the cooldown
no-op return (validator.py line 221) or a run of the crawl loop. -/
inductive BuildResult where
  | noOp
  | ran (r : RunResult)
deriving Repr, DecidableEq

/-- The urls fetched by one invocation: none for the no-op return. -/
def fetchesOf : BuildResult → List String
  | .noOp => []
  | .ran r => r.log

/-- `build_parts_db` (validator.py lines 206-316): load the status triple;
when a finished stamp exists, either return at once (cooldown not yet
elapsed) or restart with a fresh accumulator; default the accumulator and
seed the queue with the configured start url when absent; then run the
loop. -/
def build_parts_db (fetchF : String → Page) (cancel : Nat → Bool) (now : Int)
    (startUrl : String) (file : FileState) (fuel : Nat) (db : List Part) : BuildResult :=
  let st := fetch_status file
  match st.2.2 with
  | some fin =>
    if fin + weekSecs > now then
      .noOp
    else
      .ran (crawl_loop fetchF cancel now fuel 0
        { next_urls := st.1.getD [startUrl], meta := accumInit
          db := db, file := file, log := [] })
  | none =>
    .ran (crawl_loop fetchF cancel now fuel 0
      { next_urls := st.1.getD [startUrl], meta := st.2.1.getD accumInit
        db := db, file := file, log := [] })

/-- Claim C3: when the head page of the queue carries pagination metadata
whose offset is less than or equal to the accumulator's recorded offset,
the run fails with the offset-loop exit; the result's fetch log extends the
previous one by that single url (nothing further is fetched) and the queue
is abandoned (nothing is enqueued). -/
theorem crawl_fails_on_nonincreasing_offset
    (fetchF : String → Page) (cancel : Nat → Bool) (now : Int) (fuel k : Nat)
    (s : CrawlState) (url : String) (rest : List String) (m : MetaObj) (o : Int)
    (hq : s.next_urls = url :: rest)
    (hc : cancel k = false)
    (hm : (fetchF url).meta = some m)
    (ho : m.offset = some o)
    (hle : o ≤ s.meta.offset) :
    crawl_loop fetchF cancel now (fuel + 1) k s =
      ⟨.failed .loopOffset, s.file, s.db, s.log ++ [url]⟩ := by
  have hcond : ¬ (s.next_urls = [] ∨ cancel k = true) := by
    simp [hq, hc]
  have hiter : crawl_iter fetchF now s =
      .fail .loopOffset { s with log := s.log ++ [url] } := by
    simp only [crawl_iter, hq, hm, metaStep, ho]
    rw [if_pos (by omega)]
  simp only [crawl_loop, if_neg hcond, hiter]

/-- A page whose meta offset (0) does not exceed the accumulator offset
below. -/
def pageOffsetZero : Page :=
  { meta := some { offset := some 0, total := some 9 }
    data := some []
    links := none }

/-- Witness for C3: one url, a page at offset 0 against an accumulator
already at offset 0; the run fails with the offset-loop exit after that
one fetch. -/
theorem crawl_fails_on_nonincreasing_offset_witness :
    crawl_loop (fun _ => pageOffsetZero) (fun _ => false) 0 (0 + 1) 0
      { next_urls := ["u"], meta := { total := -1, offset := 0, limit := -1 }
        db := [], file := .missing, log := [] } =
      ⟨.failed .loopOffset, .missing, [], [] ++ ["u"]⟩ :=
  crawl_fails_on_nonincreasing_offset (fun _ => pageOffsetZero) (fun _ => false) 0 0 0
    _ "u" [] { offset := some 0, total := some 9 } 0 rfl rfl rfl rfl (by decide)

/-- Claim C5: when the fetched page's links carry a next url equal to the
url just fetched, the run fails with the url-loop exit; the fetch log grows
by that single url and nothing is enqueued. -/
theorem crawl_fails_on_self_next_url
    (fetchF : String → Page) (cancel : Nat → Bool) (now : Int) (fuel k : Nat)
    (s : CrawlState) (url : String) (rest : List String) (lk : LinksObj) (a2 : Accum)
    (hq : s.next_urls = url :: rest)
    (hc : cancel k = false)
    (hm : metaStep s.meta (fetchF url).meta = .ok a2)
    (hl : (fetchF url).links = some lk)
    (hn : lk.next = some (some url)) :
    crawl_loop fetchF cancel now (fuel + 1) k s =
      ⟨.failed .loopUrl, s.file, s.db, s.log ++ [url]⟩ := by
  have hcond : ¬ (s.next_urls = [] ∨ cancel k = true) := by
    simp [hq, hc]
  have hiter : crawl_iter fetchF now s =
      .fail .loopUrl { s with log := s.log ++ [url] } := by
    simp only [crawl_iter, hq, hm, hl, linksStep, hn]
    simp
  simp only [crawl_loop, if_neg hcond, hiter]

/-- A page whose next link repeats the url "u" it is served from. -/
def pageSelfNext : Page :=
  { meta := none
    data := some []
    links := some { next := some (some "u") } }

/-- Witness for C5: fetching "u" yields a page whose next link is "u"
itself; the run fails with the url-loop exit after that one fetch. -/
theorem crawl_fails_on_self_next_url_witness :
    crawl_loop (fun _ => pageSelfNext) (fun _ => false) 0 (0 + 1) 0
      { next_urls := ["u"], meta := accumInit, db := [], file := .missing, log := [] } =
      ⟨.failed .loopUrl, .missing, [], [] ++ ["u"]⟩ :=
  crawl_fails_on_self_next_url (fun _ => pageSelfNext) (fun _ => false) 0 0 0
    _ "u" [] { next := some (some "u") } accumInit rfl rfl rfl rfl rfl

/-- Claim C9: loading the status file when it is missing, or present but
corrupt, yields the absent sentinel (None, None, None) in every component,
rather than an error. -/
theorem fetch_status_missing_or_corrupt_absent :
    fetch_status .missing = (none, none, none) ∧
    fetch_status .corrupt = (none, none, none) :=
  ⟨rfl, rfl⟩

/-- Claim C7: after a finished save, loading yields the finished stamp, and
invoking the crawler strictly less than one week later returns at once:
the result is the no-op and the list of fetched urls is empty. -/
theorem finished_checkpoint_blocks_recrawl
    (t now : Int) (fetchF : String → Page) (cancel : Nat → Bool)
    (startUrl : String) (fuel : Nat) (db : List Part)
    (h : now < t + weekSecs) :
    fetch_status (.valid (save_status none none true t)) = (none, none, some t) ∧
    build_parts_db fetchF cancel now startUrl
        (.valid (save_status none none true t)) fuel db = .noOp ∧
    fetchesOf (build_parts_db fetchF cancel now startUrl
        (.valid (save_status none none true t)) fuel db) = [] := by
  have hb : build_parts_db fetchF cancel now startUrl
      (.valid (save_status none none true t)) fuel db = .noOp := by
    simp only [build_parts_db, fetch_status, save_status, if_pos]
    rw [if_pos (by omega)]
  exact ⟨rfl, hb, by rw [hb]; rfl⟩

/-- Witness for C7 at finish time 0, re-invocation time 1. -/
theorem finished_checkpoint_blocks_recrawl_witness :
    (1 : Int) < 0 + weekSecs ∧
    (fetch_status (.valid (save_status none none true 0)) = (none, none, some 0) ∧
     build_parts_db (fun _ => ⟨none, none, none⟩) (fun _ => false) 1 "u"
        (.valid (save_status none none true 0)) 3 [] = .noOp ∧
     fetchesOf (build_parts_db (fun _ => ⟨none, none, none⟩) (fun _ => false) 1 "u"
        (.valid (save_status none none true 0)) 3 []) = []) :=
  ⟨by decide,
   finished_checkpoint_blocks_recrawl 0 1 (fun _ => ⟨none, none, none⟩) (fun _ => false)
     "u" 3 [] (by decide)⟩

/-- A page whose meta object is present but lacks the offset key. -/
def pageNoOffset : Page :=
  { meta := some { offset := none, total := some 5 }
    data := some []
    links := none }

/-- Claim C4 counterexample: a successfully fetched page whose meta object
lacks the offset key does NOT have that field treated as absent — the
source reads `response_meta["offset"]` with no handler, so the run aborts
with an uncaught KeyError, contradicting the claim that no error is
raised. -/
theorem crawl_meta_without_offset_raises :
    crawl_loop (fun _ => pageNoOffset) (fun _ => false) 0 1 0
      { next_urls := ["u"], meta := accumInit, db := [], file := .missing, log := [] } =
      ⟨.failed (.keyError "offset"), .missing, [], ["u"]⟩ := by
  decide

/-- Claim C4 (amended): absence of the entire top-level meta object or the
entire links object is tolerated — the iteration proceeds with those
optional fields treated as absent (accumulator unchanged, nothing
enqueued) and no error; a meta object present without its offset key, or a
links object present without its next key, instead raises an uncaught
KeyError. -/
theorem crawl_tolerates_missing_top_level_keys
    (fetchF : String → Page) (now : Int) (s : CrawlState)
    (url : String) (rest : List String) (items : List Payload)
    (hq : s.next_urls = url :: rest)
    (hm : (fetchF url).meta = none)
    (hl : (fetchF url).links = none)
    (hd : (fetchF url).data = some items) :
    crawl_iter fetchF now s =
      .ok { next_urls := rest, meta := s.meta
            db := parse_and_insert_response_parts s.db items
            file := .valid (save_status (some rest) (some s.meta) false now)
            log := s.log ++ [url] } := by
  simp only [crawl_iter, hq, hm, hl, hd, metaStep, linksStep]

/-- Witness for the amended C4: a page with neither meta nor links key is
processed without error. -/
theorem crawl_tolerates_missing_top_level_keys_witness :
    crawl_iter (fun _ => ⟨none, some [], none⟩) 0
      { next_urls := ["u"], meta := accumInit, db := [], file := .missing, log := [] } =
      .ok { next_urls := [], meta := accumInit
            db := parse_and_insert_response_parts [] []
            file := .valid (save_status (some []) (some accumInit) false 0)
            log := [] ++ ["u"] } :=
  crawl_tolerates_missing_top_level_keys (fun _ => ⟨none, some [], none⟩) 0
    _ "u" [] [] rfl rfl rfl rfl

/-- Claim C8: when the cooperative stop flag is observed while urls remain
queued, the loop exits at once as interrupted and the status file holds the
remaining queue and accumulator with no finished stamp; and a subsequent
invocation of `build_parts_db` on that file starts the loop from exactly
that queue and accumulator. -/
theorem cancelled_run_saves_resumable_checkpoint
    (fetchF : String → Page) (cancel : Nat → Bool) (now : Int) (fuel k : Nat)
    (s : CrawlState)
    (fetchF2 : String → Page) (cancel2 : Nat → Bool) (now2 : Int)
    (startUrl : String) (fuel2 : Nat) (db2 : List Part)
    (h1 : s.next_urls ≠ [])
    (h2 : cancel k = true) :
    crawl_loop fetchF cancel now (fuel + 1) k s =
      ⟨.interrupted,
        .valid { finished := none, meta := some s.meta, next_urls := some s.next_urls },
        s.db, s.log⟩ ∧
    build_parts_db fetchF2 cancel2 now2 startUrl
        (.valid { finished := none, meta := some s.meta, next_urls := some s.next_urls })
        fuel2 db2 =
      .ran (crawl_loop fetchF2 cancel2 now2 fuel2 0
        { next_urls := s.next_urls, meta := s.meta, db := db2
          file := .valid { finished := none, meta := some s.meta, next_urls := some s.next_urls }
          log := [] }) := by
  constructor
  · simp only [crawl_loop]
    rw [if_pos (Or.inr h2), if_pos h2]
    rfl
  · simp only [build_parts_db, fetch_status, Option.getD]

/-- Witness for C8: two urls pending, flag already set at the first loop
boundary. -/
theorem cancelled_run_saves_resumable_checkpoint_witness :
    crawl_loop (fun _ => (⟨none, none, none⟩ : Page)) (fun _ => true) 0 (0 + 1) 0
      { next_urls := ["a", "b"], meta := accumInit, db := [], file := .missing, log := [] } =
      ⟨.interrupted,
        .valid { finished := none, meta := some accumInit, next_urls := some ["a", "b"] },
        [], []⟩ ∧
    build_parts_db (fun _ => (⟨none, none, none⟩ : Page)) (fun _ => false) 7 "s"
        (.valid { finished := none, meta := some accumInit, next_urls := some ["a", "b"] })
        5 [] =
      .ran (crawl_loop (fun _ => (⟨none, none, none⟩ : Page)) (fun _ => false) 7 5 0
        { next_urls := ["a", "b"], meta := accumInit, db := []
          file := .valid { finished := none, meta := some accumInit, next_urls := some ["a", "b"] }
          log := [] }) :=
  cancelled_run_saves_resumable_checkpoint
    (fun _ => (⟨none, none, none⟩ : Page)) (fun _ => true) 0 0 0
    { next_urls := ["a", "b"], meta := accumInit, db := [], file := .missing, log := [] }
    (fun _ => (⟨none, none, none⟩ : Page)) (fun _ => false) 7 "s" 5 []
    (by decide) rfl

/-- One page of a linear pagination chain: its url, the offset and total
its meta object reports, and its data payloads. -/
structure ChainPage where
  url : String
  offset : Int
  total : Int
  items : List Payload
deriving Repr, DecidableEq

/-- Url of the head of the remaining chain, if any. -/
def chainNextUrl : List ChainPage → Option String
  | [] => none
  | c :: _ => some c.url

/-- The response served for a chain element: meta with the element's offset
and total, its data payloads, and a links object whose next is the given
successor url (JSON null at the end of the chain). -/
def mkPage (c : ChainPage) (nxt : Option String) : Page :=
  { meta := some { offset := some c.offset, total := some c.total }
    data := some c.items
    links := some { next := some nxt } }

/-- The fetch function serves the chain: each element's url yields its page
with the successor's url as next link, and no element links to itself. -/
def linked (fetchF : String → Page) : List ChainPage → Prop
  | [] => True
  | c :: rest =>
    fetchF c.url = mkPage c (chainNextUrl rest) ∧
    chainNextUrl rest ≠ some c.url ∧
    linked fetchF rest

/-- Offsets along the chain strictly increase, starting strictly above the
given base. -/
def increasing : Int → List ChainPage → Prop
  | _, [] => True
  | base, c :: rest => base < c.offset ∧ increasing c.offset rest

/-- Pending queue holding exactly the next chain url (empty at the end). -/
def chainQueue : List ChainPage → List String
  | [] => []
  | c :: _ => [c.url]

/-- The record store after inserting every chain page's payloads in
order. -/
def chainDb (db : List Part) (chain : List ChainPage) : List Part :=
  chain.foldl (fun d c => parse_and_insert_response_parts d c.items) db

lemma crawl_loop_step (fetchF : String → Page) (cancel : Nat → Bool) (now : Int)
    (fuel k : Nat) (s : CrawlState)
    (hc : ¬ (s.next_urls = [] ∨ cancel k = true)) :
    crawl_loop fetchF cancel now (fuel + 1) k s =
      match crawl_iter fetchF now s with
      | .ok s2 => crawl_loop fetchF cancel now fuel (k + 1) s2
      | .fail e s2 => ⟨.failed e, s2.file, s2.db, s2.log⟩ := by
  simp only [crawl_loop, if_neg hc]

lemma crawl_chain_completes (fetchF : String → Page) (now : Int) :
    ∀ (chain : List ChainPage) (a : Accum) (db : List Part) (file : FileState)
      (log : List String) (k : Nat),
      linked fetchF chain → increasing a.offset chain →
      crawl_loop fetchF (fun _ => false) now (chain.length + 1) k
        { next_urls := chainQueue chain, meta := a, db := db, file := file, log := log } =
        ⟨.completed, .valid { finished := some now, meta := none, next_urls := none },
          chainDb db chain, log ++ chain.map ChainPage.url⟩ := by
  intro chain
  induction chain with
  | nil =>
    intro a db file log k _ _
    simp [crawl_loop, chainQueue, chainDb, save_status]
  | cons c rest ih =>
    intro a db file log k hlink hinc
    obtain ⟨hf, hne, hlink2⟩ := hlink
    obtain ⟨hbase, hinc2⟩ := hinc
    have hcond : ¬ (chainQueue (c :: rest) = [] ∨ (fun _ : Nat => false) k = true) := by
      simp [chainQueue]
    have hmeta : metaStep a (some { offset := some c.offset, total := some c.total }) =
        .ok { total := c.total, offset := c.offset, limit := a.limit } := by
      simp only [metaStep]
      rw [if_neg (by omega)]
      rfl
    have hlinks : linksStep c.url [] (some { next := some (chainNextUrl rest) }) =
        .ok (chainQueue rest) := by
      cases rest with
      | nil => rfl
      | cons c2 r2 =>
        simp only [linksStep, chainNextUrl, chainQueue]
        rw [if_neg fun h => hne (by rw [chainNextUrl, h])]
        simp
    have hiter : crawl_iter fetchF now
        { next_urls := chainQueue (c :: rest), meta := a, db := db, file := file,
          log := log } =
        .ok { next_urls := chainQueue rest
              meta := { total := c.total, offset := c.offset, limit := a.limit }
              db := parse_and_insert_response_parts db c.items
              file := .valid (save_status (some (chainQueue rest))
                (some { total := c.total, offset := c.offset, limit := a.limit }) false now)
              log := log ++ [c.url] } := by
      simp only [crawl_iter, chainQueue, hf, mkPage, hmeta, hlinks]
    have hlen : (c :: rest).length + 1 = rest.length + 1 + 1 := by simp
    rw [hlen, crawl_loop_step fetchF _ now (rest.length + 1) k _ hcond]
    simp only [hiter]
    rw [ih { total := c.total, offset := c.offset, limit := a.limit }
      (parse_and_insert_response_parts db c.items) _ _ (k + 1) hlink2 hinc2]
    simp [chainDb, List.append_assoc]

/-- Claim C6: starting with no checkpoint and no cancellation, a fetch
sequence forming a linear chain of pages with strictly increasing offsets
runs to completion: the crawler ends as completed after fetching exactly
the chain's urls and the final status file has the finished stamp set, no
pending urls and a cleared accumulator. -/
theorem crawl_increasing_offsets_completes
    (fetchF : String → Page) (now : Int) (startUrl : String)
    (chain : List ChainPage) (db : List Part) (c0 : ChainPage) (rest : List ChainPage)
    (hchain : chain = c0 :: rest)
    (hstart : startUrl = c0.url)
    (hlink : linked fetchF chain)
    (hinc : increasing (-1) chain) :
    build_parts_db fetchF (fun _ => false) now startUrl .missing (chain.length + 1) db =
      .ran ⟨.completed, .valid { finished := some now, meta := none, next_urls := none },
        chainDb db chain, chain.map ChainPage.url⟩ := by
  subst hchain
  subst hstart
  have h := crawl_chain_completes fetchF now (c0 :: rest) accumInit db .missing [] 0
    hlink hinc
  simp only [build_parts_db, fetch_status, Option.getD]
  rw [show [c0.url] = chainQueue (c0 :: rest) from rfl, h]
  simp

/-- First chain page of the C6 witness. -/
def chainPageOne : ChainPage := { url := "u1", offset := 0, total := 2, items := [payA] }

/-- Second chain page of the C6 witness. -/
def chainPageTwo : ChainPage := { url := "u2", offset := 1, total := 2, items := [payB] }

/-- Fetch function of the C6 witness, serving the two-page chain. -/
def chainFetchW : String → Page := fun u =>
  if u = "u1" then mkPage chainPageOne (some "u2") else mkPage chainPageTwo none

/-- Witness for C6: a two-page chain with offsets 0 then 1 completes, and
the final status file holds the finished stamp, no pending urls and a
cleared accumulator. -/
theorem crawl_increasing_offsets_completes_witness :
    build_parts_db chainFetchW (fun _ => false) 5 "u1" .missing
        ([chainPageOne, chainPageTwo].length + 1) [] =
      .ran ⟨.completed, .valid { finished := some 5, meta := none, next_urls := none },
        chainDb [] [chainPageOne, chainPageTwo],
        [chainPageOne, chainPageTwo].map ChainPage.url⟩ :=
  crawl_increasing_offsets_completes chainFetchW 5 "u1"
    [chainPageOne, chainPageTwo] [] chainPageOne [chainPageTwo] rfl rfl
    ⟨by decide, by decide, by decide, by decide, trivial⟩
    ⟨by decide, by decide, trivial⟩

end Validator
